import Mathlib

/-!
# Docker registry secret engine: shallow embedding

A model of the Go package `dockerregistry` (config.go, role.go, backend.go,
path_roles.go, path_creds.go, helpers.go, client.go).  Go strings are modelled
as Lean strings (sequences of code points), Go pointers that may be nil as
`Option`, the pair `(value, error)` of a Go call as a pair of options or as an
`Except`, and a runtime panic as the `panic` constructor of `Outcome`.

Every call that leaves the package (storage, HTTP transport, JSON and JWT
decoding) is answered by an `Env` of collaborators and is recorded in the
`trace` of the `World`, so that "how often was X called" is a property of the
final world.
-/

set_option autoImplicit false

namespace DockerRegistry

/-! ## Go runtime: errors, panics, strings -/

/-- Go `error` values built by this package: `errors.New` / `fmt.Errorf`
(`errorString`), `errwrap.Wrapf` (`wrapped`) and `logical.CodedError`
(`coded`). -/
inductive GoError where
  | errorString (msg : String)
  | wrapped (outer : String) (inner : GoError)
  | coded (status : Nat) (msg : String)
  deriving DecidableEq, Repr

/-- The `Error()` method: a wrapped error prints its outer message. -/
def GoError.Error : GoError → String
  | .errorString m => m
  | .wrapped o _ => o
  | .coded _ m => m

/-- The error wrapped by `errwrap.Wrapf`, if any. -/
def GoError.inner : GoError → Option GoError
  | .wrapped _ i => some i
  | _ => none

/-- Model of `errwrap.Wrapf(context + "{{err}}", err)`: every format string of
the package is a context followed by the placeholder, which is replaced by the
text of the inner error. -/
def Wrapf (context : String) (err : GoError) : GoError :=
  .wrapped (context ++ err.Error) err

/-- Result of running Go code that may panic. -/
inductive Outcome (α : Type) where
  | ret (a : α)
  | panic (msg : String)
  deriving DecidableEq, Repr

/-- Sequencing of code that may panic. -/
def Outcome.bind {α β : Type} (x : Outcome α) (f : α → Outcome β) : Outcome β :=
  match x with
  | .ret a => f a
  | .panic m => .panic m

/-- The white space of `unicode.IsSpace`. -/
def isSpace (c : Char) : Bool :=
  let n := c.toNat
  (0x09 ≤ n && n ≤ 0x0D) || n == 0x20 || n == 0x85 || n == 0xA0 || n == 0x1680
    || (0x2000 ≤ n && n ≤ 0x200A) || n == 0x2028 || n == 0x2029 || n == 0x202F
    || n == 0x205F || n == 0x3000

/-- Model of `strings.TrimSpace`: leading and trailing white space removed. -/
def TrimSpace (s : String) : String :=
  ⟨((s.data.dropWhile isSpace).reverse.dropWhile isSpace).reverse⟩

/-- Model of `strings.Join` on character lists. -/
def joinChars (sep : List Char) : List (List Char) → List Char
  | [] => []
  | [a] => a
  | a :: b :: rest => a ++ sep ++ joinChars sep (b :: rest)

/-- Model of `strings.Join(elems, sep)`. -/
def Join (elems : List String) (sep : String) : String :=
  ⟨joinChars sep.data (elems.map String.data)⟩

/-- Splitting a character list at every occurrence of one separator character;
the empty input gives one empty piece. -/
def splitChars (sep : Char) : List Char → List (List Char)
  | [] => [[]]
  | c :: cs =>
    if c = sep then [] :: splitChars sep cs
    else
      match splitChars sep cs with
      | [] => [[c]]
      | h :: t => (c :: h) :: t

/-- Model of `strings.Split(s, " ")`, the only separator the package uses. -/
def SplitSpace (s : String) : List String :=
  (splitChars ' ' s.data).map String.mk

/-- Whether `needle` occurs in `hay` as a contiguous run (`strings.Contains`). -/
def containsChars (needle : List Char) : List Char → Bool
  | [] => needle.isEmpty
  | c :: cs => needle.isPrefixOf (c :: cs) || containsChars needle cs

/-- Model of `strings.Contains(s, substr)`. -/
def Contains (s substr : String) : Bool :=
  containsChars substr.data s.data

/-! ## Framework field data -/

/-- Values carried by `framework.FieldData` and by response maps. -/
inductive FieldValue where
  | str (s : String)
  | strSlice (l : List String)
  | time (t : Int)
  deriving DecidableEq, Repr

/-- The part of `framework.FieldSchema` the getters use: the declared default
and the zero value of the declared type. -/
structure FieldSchema where
  Default : Option FieldValue
  Zero : FieldValue
  deriving DecidableEq, Repr

/-- Model of `FieldSchema.DefaultOrZero`. -/
def FieldSchema.DefaultOrZero (s : FieldSchema) : FieldValue :=
  match s.Default with
  | some v => v
  | none => s.Zero

/-- Model of `framework.FieldData`: the fields supplied by the request, already
parsed to their schema type, and the schema of the path. -/
structure FieldData where
  Raw : List (String × FieldValue)
  Schema : List (String × FieldSchema)
  deriving DecidableEq, Repr

/-- Model of `FieldData.GetOk`: a field is reported only when it is declared by
the schema and supplied by the request; a declared default is not consulted. -/
def FieldData.GetOk (d : FieldData) (k : String) : Option FieldValue :=
  match d.Schema.lookup k with
  | none => none
  | some _ => d.Raw.lookup k

/-- Model of `FieldData.Get`: panics on an undeclared field, falls back to the
schema default or zero value when the request does not supply the field. -/
def FieldData.Get (d : FieldData) (k : String) : Outcome FieldValue :=
  match d.Schema.lookup k with
  | none => .panic ("field " ++ k ++ " not in the schema")
  | some schema =>
    match d.GetOk k with
    | some v => .ret v
    | none => .ret schema.DefaultOrZero

/-- The type assertion `v.(string)`. -/
def asString : FieldValue → Outcome String
  | .str s => .ret s
  | _ => .panic "interface conversion: interface {} is not string"

/-- The type assertion `v.([]string)`. -/
def asStringSlice : FieldValue → Outcome (List String)
  | .strSlice l => .ret l
  | _ => .panic "interface conversion: interface {} is not []string"

/-! ## config.go -/

/-- The constant `defaultEndpoint`. -/
def defaultEndpoint : String := "https://auth.docker.io"

/-- The stored configuration. -/
structure Config where
  EndpointURL : String
  ClientID : String
  Username : String
  Password : String
  deriving DecidableEq, Repr

/-- A config with the default values; unnamed fields take the zero value. -/
def DefaultConfig : Config :=
  { EndpointURL := defaultEndpoint, ClientID := "", Username := "", Password := "" }

/-- One `if v, ok := d.GetOk(key); ok { nv := TrimSpace(v.(string)); if nv != cur
{ set nv; changed = true } }` block of an `Update` method: `cur` is the current
value of the field, the result is its new value and the new `changed` flag. -/
def updateStringField (d : FieldData) (key : String) (cur : String) (changed : Bool) :
    Outcome (String × Bool) :=
  match d.GetOk key with
  | some v =>
    (asString v).bind fun s =>
      let nv := TrimSpace s
      if nv != cur then .ret (nv, true) else .ret (cur, changed)
  | none => .ret (cur, changed)

/-- Model of `(*Config).Update`: the updated configuration, the `changed` flag
and the (always nil) error. -/
def Config.Update (c : Config) (d : Option FieldData) :
    Outcome (Config × Bool × Option GoError) :=
  match d with
  | none => .ret (c, false, none)
  | some d =>
    (updateStringField d "endpoint_url" c.EndpointURL false).bind fun (e, ch1) =>
    (updateStringField d "client_id" c.ClientID ch1).bind fun (i, ch2) =>
    (updateStringField d "username" c.Username ch2).bind fun (u, ch3) =>
    (updateStringField d "password" c.Password ch3).bind fun (p, ch4) =>
    .ret ({ EndpointURL := e, ClientID := i, Username := u, Password := p }, ch4, none)

/-- Model of `(*Config).AsMap`. -/
def Config.AsMap (c : Config) : List (String × FieldValue) :=
  [("endpoint_url", .str c.EndpointURL), ("client_id", .str c.ClientID),
   ("username", .str c.Username), ("password", .str c.Password)]

/-! ## role.go -/

/-- The stored configuration for a role. -/
structure Role where
  Name : String
  Service : String
  Scopes : List String
  deriving DecidableEq, Repr

/-- Model of `(*Role).Update`: name and service are compared after trimming,
a supplied scopes field replaces the scopes and sets `changed`. -/
def Role.Update (c : Role) (d : Option FieldData) :
    Outcome (Role × Bool × Option GoError) :=
  match d with
  | none => .ret (c, false, none)
  | some d =>
    (updateStringField d "name" c.Name false).bind fun (n, ch1) =>
    (updateStringField d "service" c.Service ch1).bind fun (s, ch2) =>
    (match d.GetOk "scopes" with
     | some v => (asStringSlice v).bind fun l => .ret (l, true)
     | none => .ret (c.Scopes, ch2)).bind fun (sc, ch3) =>
    .ret ({ Name := n, Service := s, Scopes := sc }, ch3, none)

/-- Model of `(*Role).AsMap`. -/
def Role.AsMap (c : Role) : List (String × FieldValue) :=
  [("name", .str c.Name), ("service", .str c.Service), ("scopes", .strSlice c.Scopes)]

/-! ## The world outside the package -/

/-- Model of `logical.StorageEntry`: a key and the stored bytes. -/
structure StorageEntry where
  Key : String
  Value : List Nat
  deriving DecidableEq, Repr

/-- Model of `url.Values`: keys in insertion order, each with its values. -/
structure Values where
  entries : List (String × List String)
  deriving DecidableEq, Repr

/-- Model of `Values.Add`: `v[key] = append(v[key], value)`. -/
def Values.Add (v : Values) (key value : String) : Values :=
  match v.entries.lookup key with
  | some _ => ⟨v.entries.map fun p => if p.1 == key then (p.1, p.2 ++ [value]) else p⟩
  | none => ⟨v.entries ++ [(key, [value])]⟩

/-- The values attached to a key, `none` when the key is absent from the map. -/
def Values.lookup (v : Values) (key : String) : Option (List String) :=
  v.entries.lookup key

/-- The request handed to `httpClient.Do`: `URL` is the text given to
`url.Parse`, `Query` the parameters whose encoding becomes `RawQuery`,
`BasicAuth` the credentials set by `SetBasicAuth`. -/
structure Request where
  Method : String
  URL : String
  Query : Values
  BasicAuth : Option (String × String)
  deriving DecidableEq, Repr

/-- The part of `http.Response` the client reads. -/
structure HTTPResponse where
  StatusCode : Int
  Status : String
  Body : List Nat
  deriving DecidableEq, Repr

/-- Calls that leave the package, in the order they are made. -/
inductive Event where
  | storageGet (key : String)
  | storagePut (entry : StorageEntry)
  | tokenCall (endpoint clientID username password service scope : String)
  | httpDo (req : Request)
  | jsonDecode (body : List Nat)
  | jwtParse (token : String)
  deriving DecidableEq, Repr

/-- State threaded through the handlers: the content of the storage and the
trace of outside calls made so far, oldest first. -/
structure World where
  store : List StorageEntry
  trace : List Event
  deriving DecidableEq, Repr

/-- Token response of the registry (`tokenResponse`). -/
structure tokenResponse where
  Token : String
  AccessToken : String
  ExpiresIn : Int
  IssuedAt : String
  JTI : String
  Subject : String
  deriving DecidableEq, Repr

/-- One access record of the token claims (`jwtAccess`). -/
structure jwtAccess where
  Typ : String
  Name : String
  Actions : List String
  deriving DecidableEq, Repr

/-- Claims of the token (`jwtClaims`). -/
structure jwtClaims where
  Audience : String
  Issuer : String
  ExpiresAt : Nat
  NotBefore : Nat
  IssuedAt : Nat
  Access : List jwtAccess
  deriving DecidableEq, Repr

/-- A parsed, unverified signed token (`jwt.JSONWebToken`). -/
structure JSONWebToken where
  raw : String
  deriving DecidableEq, Repr

/-- The collaborators of the package, as functions: storage failures, the JSON
codec of stored entities, URL parsing, request construction, the HTTP
transport (indexed by the number of requests already made), the JSON decoder
of the response body, the JWT library, the table of printable characters above
Latin-1 used by `strconv.Quote`, and the clock. -/
structure Env where
  storageGetErr : String → Option GoError
  storagePutErr : StorageEntry → Option GoError
  decodeConfig : List Nat → Config → Except GoError Config
  decodeRole : List Nat → Role → Except GoError Role
  encodeRole : Role → Except GoError (List Nat)
  urlParse : String → Option GoError
  newRequest : String → Values → Option GoError
  Do : Nat → Request → Except GoError HTTPResponse
  decodeTokenResponse : List Nat → Except GoError tokenResponse
  ParseSigned : String → Except GoError JSONWebToken
  UnsafeClaimsWithoutVerification : JSONWebToken → Except GoError jwtClaims
  isPrintTable : Char → Bool
  Now : Nat → Int

/-- Appends one event to the trace. -/
def World.log (w : World) (e : Event) : World :=
  { w with trace := w.trace ++ [e] }

/-- Whether an event is an HTTP request. -/
def Event.isHttpDo : Event → Bool
  | .httpDo _ => true
  | _ => false

/-- Whether an event is an invocation of the client's `Token`. -/
def Event.isTokenCall : Event → Bool
  | .tokenCall _ _ _ _ _ _ => true
  | _ => false

/-- Whether an event is a storage `Put`. -/
def Event.isStoragePut : Event → Bool
  | .storagePut _ => true
  | _ => false

/-- Whether an event is a decoding of a response body. -/
def Event.isJsonDecode : Event → Bool
  | .jsonDecode _ => true
  | _ => false

/-- Number of HTTP requests made so far. -/
def World.httpCalls (w : World) : Nat :=
  w.trace.countP Event.isHttpDo

/-- Number of invocations of the client's `Token` so far. -/
def World.tokenCalls (w : World) : Nat :=
  w.trace.countP Event.isTokenCall

/-- Number of storage `Put` calls so far. -/
def World.storagePuts (w : World) : Nat :=
  w.trace.countP Event.isStoragePut

/-- Number of response bodies decoded so far. -/
def World.jsonDecodes (w : World) : Nat :=
  w.trace.countP Event.isJsonDecode

/-- Model of `Storage.Get`: an injected failure, or the entry stored under the
key (nil when there is none). -/
def storageGet (env : Env) (w : World) (key : String) :
    Except GoError (Option StorageEntry) × World :=
  let w1 := w.log (.storageGet key)
  match env.storageGetErr key with
  | some err => (.error err, w1)
  | none => (.ok (w.store.find? fun e => e.Key == key), w1)

/-- Model of `Storage.Put`: an injected failure, or the entry replaces what was
stored under its key. -/
def storagePut (env : Env) (w : World) (entry : StorageEntry) : Option GoError × World :=
  let w1 := w.log (.storagePut entry)
  match env.storagePutErr entry with
  | some err => (some err, w1)
  | none => (none, { w1 with store := (w.store.filter fun e => e.Key != entry.Key) ++ [entry] })

/-! ## backend.go -/

/-- Model of `(*backend).Config`: the defaults, overlaid with the stored
configuration when there is a non-empty entry under "config". -/
def backend.Config (env : Env) (w : World) : Except GoError Config × World :=
  let c := DefaultConfig
  match storageGet env w "config" with
  | (.error err, w1) => (.error (Wrapf "failed to get configuration from storage: " err), w1)
  | (.ok none, w1) => (.ok c, w1)
  | (.ok (some entry), w1) =>
    if entry.Value.length == 0 then (.ok c, w1)
    else
      match env.decodeConfig entry.Value c with
      | .error err => (.error (Wrapf "failed to decode configuration: " err), w1)
      | .ok c1 => (.ok c1, w1)

/-! ## path_roles.go -/

/-- The constant `rolesPath`. -/
def rolesPath : String := "roles"

/-- The schema of the role path: name, service (default "registry.docker.io")
and scopes. -/
def roleSchema : List (String × FieldSchema) :=
  [("name", { Default := none, Zero := .str "" }),
   ("service", { Default := some (.str "registry.docker.io"), Zero := .str "" }),
   ("scopes", { Default := none, Zero := .strSlice [] })]

/-- Model of `(*backend).Role`: the zero role, overlaid with the stored role
when there is a non-empty entry under "roles/" + name. -/
def backend.Role (env : Env) (w : World) (roleName : String) : Except GoError Role × World :=
  let r : DockerRegistry.Role := { Name := "", Service := "", Scopes := [] }
  match storageGet env w (rolesPath ++ "/" ++ roleName) with
  | (.error err, w1) => (.error (Wrapf "failed to get role from storage: " err), w1)
  | (.ok none, w1) => (.ok r, w1)
  | (.ok (some entry), w1) =>
    if entry.Value.length == 0 then (.ok r, w1)
    else
      match env.decodeRole entry.Value r with
      | .error err => (.error (Wrapf "failed to decode configuration: " err), w1)
      | .ok r1 => (.ok r1, w1)

/-- Model of `logical.Response`: the data map. -/
structure Response where
  Data : List (String × FieldValue)
  deriving DecidableEq, Repr

/-- What a handler hands back: the `(*logical.Response, error)` pair, or a panic. -/
abbrev HandlerResult := Outcome (Option Response × Option GoError)

/-- Model of `(*backend).pathRoleWriteOperation`: load the role, update it from
the field data and persist it only when `Update` reports a change. -/
def backend.pathRoleWriteOperation (env : Env) (w : World) (fieldData : FieldData) :
    HandlerResult × World :=
  match (fieldData.Get "name").bind asString with
  | .panic m => (.panic m, w)
  | .ret roleName =>
    match backend.Role env w roleName with
    | (.error err, w1) => (.ret (none, some err), w1)
    | (.ok r, w1) =>
      match r.Update (some fieldData) with
      | .panic m => (.panic m, w1)
      | .ret (_, _, some err) => (.ret (none, some (.coded 400 err.Error)), w1)
      | .ret (r1, changed, none) =>
        if changed then
          match env.encodeRole r1 with
          | .error err => (.ret (none, some (Wrapf "failed to generate JSON role: " err)), w1)
          | .ok bytes =>
            match storagePut env w1 { Key := rolesPath ++ "/" ++ roleName, Value := bytes } with
            | (some err, w2) =>
              (.ret (none, some (Wrapf "failed to persist role to storage: " err)), w2)
            | (none, w2) => (.ret (none, none), w2)
        else (.ret (none, none), w1)

/-! ## client.go -/

/-- Registry token information holder (`RegistryToken`); `ExpiresAt` is an
instant in nanoseconds. -/
structure RegistryToken where
  RegistryURL : String
  Service : String
  RequestScopes : List String
  TokenScopes : List String
  Token : String
  AccessToken : String
  ExpiresAt : Int
  deriving DecidableEq, Repr

/-- Model of `(*RegistryToken).AsMap` on a non-nil receiver. -/
def RegistryToken.AsMap (rt : RegistryToken) : List (String × FieldValue) :=
  [("registry_url", .str rt.RegistryURL), ("service", .str rt.Service),
   ("request_scopes", .strSlice rt.RequestScopes), ("token_scopes", .strSlice rt.TokenScopes),
   ("token", .str rt.Token), ("access_token", .str rt.AccessToken),
   ("expires_at", .time rt.ExpiresAt)]

/-- Model of `(*jwtAccess).String`: `fmt.Sprintf("%s:%s:%s", Type, Name,
strings.Join(Actions, ","))`. -/
def jwtAccess.String (ja : jwtAccess) : String :=
  ja.Typ ++ ":" ++ ja.Name ++ ":" ++ Join ja.Actions ","

/-- Model of `strconv.IsPrint`: decided inline for Latin-1, by the tables of
the `unicode` package above it. -/
def IsPrint (table : Char → Bool) (c : Char) : Bool :=
  let r := c.toNat
  if r ≤ 0xFF then
    if 0x20 ≤ r && r < 0x7F then true
    else if 0xA1 ≤ r then r != 0xAD
    else false
  else table c

/-- Lower-case hexadecimal digits of `r`, `width` of them, most significant first. -/
def hexDigits (width r : Nat) : List Char :=
  (List.range width).reverse.map fun i => Nat.digitChar ((r >>> (4 * i)) % 16)

/-- Model of `strconv.appendEscapedRune` for the double quote, as used by
`strconv.Quote`: the quote and the backslash are backslashed, printable runes
are copied, the rest is escaped. -/
def appendEscapedRune (table : Char → Bool) (c : Char) : List Char :=
  let r := c.toNat
  if r == 0x22 || r == 0x5C then [Char.ofNat 0x5C, c]
  else if IsPrint table c then [c]
  else if r == 0x07 then [Char.ofNat 0x5C, 'a']
  else if r == 0x08 then [Char.ofNat 0x5C, 'b']
  else if r == 0x0C then [Char.ofNat 0x5C, 'f']
  else if r == 0x0A then [Char.ofNat 0x5C, 'n']
  else if r == 0x0D then [Char.ofNat 0x5C, 'r']
  else if r == 0x09 then [Char.ofNat 0x5C, 't']
  else if r == 0x0B then [Char.ofNat 0x5C, 'v']
  else if r < 0x20 || r == 0x7F then Char.ofNat 0x5C :: 'x' :: hexDigits 2 r
  else if r < 0x10000 then Char.ofNat 0x5C :: 'u' :: hexDigits 4 r
  else Char.ofNat 0x5C :: 'U' :: hexDigits 8 r

/-- Model of `strconv.Quote`, the rendering of the verb `%q` on a string. -/
def Quote (table : Char → Bool) (s : String) : String :=
  ⟨Char.ofNat 0x22 :: (s.data.flatMap (appendEscapedRune table) ++ [Char.ofNat 0x22])⟩

/-- The query parameters built by `Token`: each of client_id, service and
scope is added only when its value is not empty. -/
def tokenParams (clientID service scope : String) : Values :=
  let params : Values := ⟨[]⟩
  let params := if clientID != "" then params.Add "client_id" clientID else params
  let params := if service != "" then params.Add "service" service else params
  let params := if scope != "" then params.Add "scope" scope else params
  params

/-- The loop `for _, s := range access { tokenScopes = append(tokenScopes,
s.String()) }` starting from the empty slice. -/
def tokenScopesOf (access : List jwtAccess) : List String :=
  access.foldl (fun tokenScopes s => tokenScopes ++ [s.String]) []

/-- Conversion to `int64`, as done by `time.Duration(...)` and by the
multiplication with `time.Second`. -/
def wrapInt64 (n : Int) : Int :=
  (n + 2 ^ 63) % 2 ^ 64 - 2 ^ 63

/-- The `(*RegistryToken, error)` pair returned by a registry client. -/
abbrev TokenResult := Option RegistryToken × Option GoError

/-- The request `Token` builds: a GET of the endpoint's `/token` with the
query parameters, and basic authentication only when both the user name and the
password are given. -/
def tokenRequest (endpoint clientID username password service scope : String) : Request :=
  { Method := "GET", URL := endpoint ++ "/token",
    Query := tokenParams clientID service scope,
    BasicAuth := if username != "" && password != "" then some (username, password) else none }

/-- Model of `(*registryClient).Token`. -/
def registryClient.Token (env : Env) (w : World)
    (endpoint clientID username password service scope : String) : TokenResult × World :=
  if endpoint == "" then
    ((none, some (.errorString "unable to query registry without endpoint url defined")), w)
  else
    match env.urlParse (endpoint ++ "/token") with
    | some err =>
      ((none, some (.errorString ("endpoint_url is not a valid URL: " ++ err.Error))), w)
    | none =>
      let params := tokenParams clientID service scope
      match env.newRequest (endpoint ++ "/token") params with
      | some err =>
        ((none, some (.errorString
          ("unable to prepare docker registry request: " ++ err.Error))), w)
      | none =>
        let req := tokenRequest endpoint clientID username password service scope
        let w1 := w.log (.httpDo req)
        match env.Do w.httpCalls req with
        | .error err =>
          ((none, some (.errorString ("error getting auth token for service=\x27" ++ service
            ++ "\x27 scope=\x27" ++ scope ++ "\x27: " ++ err.Error))), w1)
        | .ok resp =>
          if resp.StatusCode != 200 then
            ((none, some (.errorString ("error getting auth token for "
              ++ Quote env.isPrintTable scope ++ ": " ++ resp.Status))), w1)
          else
            let body := resp.Body.take (5 <<< 20)
            let w2 := w1.log (.jsonDecode body)
            match env.decodeTokenResponse body with
            | .error _ =>
              ((none, some (.errorString ("error parsing token for "
                ++ Quote env.isPrintTable scope ++ ": " ++ resp.Status))), w2)
            | .ok data =>
              let w3 := w2.log (.jwtParse data.Token)
              match env.ParseSigned data.Token with
              | .error _ =>
                ((none, some (.errorString ("error validating token for "
                  ++ Quote env.isPrintTable scope ++ ": " ++ resp.Status))), w3)
              | .ok token =>
                match env.UnsafeClaimsWithoutVerification token with
                | .error err =>
                  ((none, some (.errorString
                    ("unable to extract token claims: " ++ err.Error))), w3)
                | .ok claims =>
                  let tokenScopes := tokenScopesOf claims.Access
                  ((some { RegistryURL := endpoint, Service := service,
                           RequestScopes := SplitSpace scope, TokenScopes := tokenScopes,
                           Token := data.Token, AccessToken := data.AccessToken,
                           ExpiresAt := env.Now w.httpCalls
                             + wrapInt64 (wrapInt64 data.ExpiresIn * 1000000000) },
                    none), w3)

/-- The interface `RegistryClient`: one method, `Token`. -/
abbrev RegistryClient :=
  World → String → String → String → String → String → String → TokenResult × World

/-- Model of `NewRegistryClient`: the HTTP client of this package. -/
def NewRegistryClient (env : Env) : RegistryClient :=
  registryClient.Token env

/-! ## helpers.go -/

/-- Modelled from the spec: the type `FibonacciBackoff` of the retry package
(github.com/jeffchao/backoff), which is not under src/; the spec gives a
retry count, an initial interval and a strategy. Durations are in
milliseconds. -/
structure FibonacciBackoff where
  Retries : Nat
  MaxRetries : Nat
  Delay : Nat
  Interval : Nat
  deriving DecidableEq, Repr

/-- Modelled from the spec: the constructor `backoff.Fibonacci` of the retry
package, which is not under src/; no retry made yet, five retries allowed. -/
def Fibonacci : FibonacciBackoff :=
  { Retries := 0, MaxRetries := 5, Delay := 0, Interval := 0 }

/-- Modelled from the spec: the retries of the retry package after a failed
first attempt, `n` of them left; the operation is run again until it succeeds
or no retry is left, and then the last error is returned. The waiting between
attempts is not modelled. -/
def retryLoop {σ : Type} (op : σ → Option GoError × σ) : Nat → GoError → σ → Option GoError × σ
  | 0, err, s => (some err, s)
  | n + 1, _, s =>
    match op s with
    | (none, s1) => (none, s1)
    | (some err, s1) => retryLoop op n err s1

/-- Modelled from the spec: the method `Retry` of the retry package, which is
not under src/: one initial attempt, then at most `MaxRetries` retries. The
operation acts on the state `σ` of the variables it captures and of the
world. -/
def FibonacciBackoff.Retry {σ : Type} (f : FibonacciBackoff) (op : σ → Option GoError × σ)
    (s : σ) : Option GoError × σ :=
  match op s with
  | (none, s1) => (none, s1)
  | (some err, s1) => retryLoop op (f.MaxRetries - f.Retries) err s1

/-- Model of `retryFib`: Fibonacci backoff with an interval of 100 ms and 5
retries. -/
def retryFib {σ : Type} (op : σ → Option GoError × σ) (s : σ) : Option GoError × σ :=
  let f := Fibonacci
  let f := { f with Interval := 100 }
  let f := { f with MaxRetries := 5 }
  f.Retry op s

/-! ## path_creds.go -/

/-- The schema of the creds path: the role name. -/
def credsSchema : List (String × FieldSchema) :=
  [("name", { Default := none, Zero := .str "" })]

/-- The closure handed to `retryFib` by `credReadOperation`: it calls the
client, stores the token in the captured variable `t` and returns the error of
the call (kept in a variable of its own that shadows the handler's `err`). -/
def credReadAttempt (client : RegistryClient) (engine : Config) (role : Role)
    (st : Option RegistryToken × World) : Option GoError × (Option RegistryToken × World) :=
  let scope := Join role.Scopes " "
  let w := st.2.log (.tokenCall engine.EndpointURL engine.ClientID engine.Username
    engine.Password role.Service scope)
  let r := client w engine.EndpointURL engine.ClientID engine.Username engine.Password
    role.Service scope
  (r.1.2, (r.1.1, r.2))

/-- Model of `(*backend).credReadOperation`. The statement
`if retryFib(...); err != nil` runs `retryFib` as the init statement of the
`if` and drops its result; the condition reads the handler's own `err`, which
is the nil error of the successful `b.Role` call. `t.AsMap()` dereferences
`t`, which panics on a nil token. -/
def backend.credReadOperation (env : Env) (client : RegistryClient) (w : World)
    (fieldData : FieldData) : HandlerResult × World :=
  match backend.Config env w with
  | (.error err, w1) => (.ret (none, some err), w1)
  | (.ok engine, w1) =>
    match (fieldData.Get "name").bind asString with
    | .panic m => (.panic m, w1)
    | .ret roleName =>
      match backend.Role env w1 roleName with
      | (.error err, w2) => (.ret (none, some err), w2)
      | (.ok role, w2) =>
        let err : Option GoError := none
        let t : Option RegistryToken := none
        let (_, (t, w3)) := retryFib (credReadAttempt client engine role) (t, w2)
        match err with
        | some err => (.ret (none, some (Wrapf "unable to retrieve token: " err)), w3)
        | none =>
          match t with
          | none => (.panic "runtime error: invalid memory address or nil pointer dereference", w3)
          | some t => (.ret (some { Data := t.AsMap }, none), w3)

/-! ## Reachable configurations -/

/-- The configuration after a sequence of `Update` calls, each on the result
of the one before. -/
def applyUpdates (c : Config) : List (Option FieldData) → Outcome Config
  | [] => .ret c
  | d :: ds => (c.Update d).bind fun r => applyUpdates r.1 ds

/-! ## Concrete inputs -/

/-- A schema for the config path: four string fields without defaults. -/
def configSchema : List (String × FieldSchema) :=
  [("endpoint_url", ⟨none, .str ""⟩), ("client_id", ⟨none, .str ""⟩),
   ("username", ⟨none, .str ""⟩), ("password", ⟨none, .str ""⟩)]

/-- A config update supplying an endpoint padded with blanks and a user name. -/
def sampleConfigFields : FieldData :=
  ⟨[("endpoint_url", .str " https://r.example "), ("username", .str "bob")], configSchema⟩

/-- A config update whose endpoint is a single blank. -/
def blankEndpointFields : FieldData :=
  ⟨[("endpoint_url", .str " ")], configSchema⟩

/-- Collaborators for the concrete runs: storage never fails, a stored config
decodes to `cfg` and a stored role to `role`, every HTTP request is answered by
`resp`, whose body decodes to `data`, whose token carries `claims`. -/
def sampleEnv (cfg : Config) (role : Role) (resp : HTTPResponse) (data : tokenResponse)
    (claims : jwtClaims) : Env :=
  { storageGetErr := fun _ => none
    storagePutErr := fun _ => none
    decodeConfig := fun _ _ => .ok cfg
    decodeRole := fun _ _ => .ok role
    encodeRole := fun _ => .ok [1]
    urlParse := fun _ => none
    newRequest := fun _ _ => none
    Do := fun _ _ => .ok resp
    decodeTokenResponse := fun _ => .ok data
    ParseSigned := fun t => .ok ⟨t⟩
    UnsafeClaimsWithoutVerification := fun _ => .ok claims
    isPrintTable := fun _ => false
    Now := fun _ => 0 }

/-- A role asking to pull one image. -/
def ciRole : Role :=
  { Name := "ci", Service := "registry.docker.io", Scopes := ["repository:myimg:pull"] }

/-- A response of the registry refusing the request. -/
def serverError : HTTPResponse :=
  { StatusCode := 500, Status := "500 Internal Server Error", Body := [] }

/-- A response of the registry granting the request. -/
def okResponse : HTTPResponse :=
  { StatusCode := 200, Status := "200 OK", Body := [1] }

/-- The decoded body of `okResponse`. -/
def sampleData : tokenResponse :=
  { Token := "jwt", AccessToken := "", ExpiresIn := 120, IssuedAt := "", JTI := "",
    Subject := "" }

/-- Claims granting pull and push on one image and pull on another. -/
def sampleClaims : jwtClaims :=
  { Audience := "", Issuer := "", ExpiresAt := 0, NotBefore := 0, IssuedAt := 0,
    Access := [⟨"repository", "myimg", ["pull", "push"]⟩, ⟨"repository", "other", ["pull"]⟩] }

/-- The world before any call: nothing stored, nothing traced. -/
def emptyWorld : World :=
  { store := [], trace := [] }

/-- The token `Token` builds from `okResponse`, `sampleData` and `sampleClaims`
for the scope of `ciRole`. -/
def sampleToken : RegistryToken :=
  { RegistryURL := "https://auth.docker.io", Service := "registry.docker.io",
    RequestScopes := ["repository:myimg:pull"],
    TokenScopes := ["repository:myimg:pull,push", "repository:other:pull"],
    Token := "jwt", AccessToken := "", ExpiresAt := 120000000000 }

/-- A scope that contains a double quote. -/
def scopeWithQuote : String :=
  "repository:" ++ String.singleton (Char.ofNat 0x22) ++ ":pull"

/-- The message of the error for `scopeWithQuote` refused with `serverError`:
the scope between double quotes, its own double quote behind a backslash. -/
def refusalMessage : String :=
  "error getting auth token for " ++ String.singleton (Char.ofNat 0x22) ++ "repository:"
    ++ String.singleton (Char.ofNat 0x5C) ++ String.singleton (Char.ofNat 0x22) ++ ":pull"
    ++ String.singleton (Char.ofNat 0x22) ++ ": 500 Internal Server Error"

/-- A role update that supplies the scopes `ciRole` already has. -/
def sameScopesFields : FieldData :=
  ⟨[("name", .str "ci"), ("scopes", .strSlice ["repository:myimg:pull"])], roleSchema⟩

/-- A credential request for the role "ci". -/
def credsFields : FieldData :=
  ⟨[("name", .str "ci")], credsSchema⟩

/-- A storage holding an entry for the role "ci" and nothing else. -/
def worldWithCiRole : World :=
  { store := [⟨"roles/ci", [1]⟩], trace := [] }

/-- A storage holding an entry for the configuration and one for the role "ci". -/
def worldWithConfigAndRole : World :=
  { store := [⟨"config", [1]⟩, ⟨"roles/ci", [1]⟩], trace := [] }

/-- The collaborators of a registry that refuses every request; stored
configurations decode to the default one, stored roles to `ciRole`. -/
def refusingEnv : Env :=
  sampleEnv DefaultConfig ciRole serverError sampleData sampleClaims

/-- The collaborators of a deployment whose stored configuration has an empty
endpoint. -/
def emptyEndpointEnv : Env :=
  sampleEnv ⟨"", "", "", ""⟩ ciRole okResponse sampleData sampleClaims

/-- An operation run next to a counter of its invocations: the state of the
operation is paired with the number of calls made so far. -/
def counted {σ : Type} (op : σ → Option GoError × σ) (st : σ × Nat) :
    Option GoError × (σ × Nat) :=
  let r := op st.1
  (r.1, (r.2, st.2 + 1))

/-- An operation without state that fails on every invocation. -/
def alwaysFailing (u : Unit) : Option GoError × Unit :=
  (some (.errorString "connection refused"), u)

/-- A readable stand-in for the JSON encoding of a role: name, service and
scopes separated by bars. -/
def encodeRoleText (r : Role) : List Nat :=
  (r.Name ++ "|" ++ r.Service ++ "|" ++ Join r.Scopes ",").data.map Char.toNat

/-- The collaborators of `refusingEnv` with `encodeRoleText` as the encoder of
roles. -/
def textCodecEnv : Env :=
  { refusingEnv with encodeRole := fun r => .ok (encodeRoleText r) }

/-- A write request for the new role "ci": the name and the scopes, no service. -/
def newRoleFields : FieldData :=
  ⟨[("name", .str "ci"), ("scopes", .strSlice ["repository:myimg:pull"])], roleSchema⟩

/-- The collaborators of a registry that grants every request; stored
configurations decode to the default one, stored roles to `ciRole`. -/
def grantingEnv : Env :=
  sampleEnv DefaultConfig ciRole okResponse sampleData sampleClaims

/-- The HTTP requests made so far, oldest first. -/
def World.requests (w : World) : List Request :=
  w.trace.filterMap fun e =>
    match e with
    | .httpDo req => some req
    | _ => none

/-- A role asking for two scopes, the second with two actions. -/
def twoScopeRole : Role :=
  { Name := "ci", Service := "registry.docker.io",
    Scopes := ["repository:myimg:pull", "repository:other:pull,push"] }

/-- The collaborators of a registry that grants every request; stored roles
decode to `twoScopeRole`. -/
def twoScopeEnv : Env :=
  sampleEnv DefaultConfig twoScopeRole okResponse sampleData sampleClaims

/-- The token `Token` builds for the scopes of `twoScopeRole`. -/
def twoScopeToken : RegistryToken :=
  { sampleToken with RequestScopes := ["repository:myimg:pull", "repository:other:pull,push"] }

/-- The token `Token` builds for a role that is not stored: no service and an
empty scope string. -/
def absentRoleToken : RegistryToken :=
  { sampleToken with Service := "", RequestScopes := [""] }

/-! ## Lemmas on updates -/

theorem updateStringField_str (d : FieldData) (key cur s : String) (changed : Bool)
    (h : d.GetOk key = some (.str s)) :
    updateStringField d key cur changed
      = .ret (TrimSpace s, changed || (TrimSpace s != cur)) := by
  unfold updateStringField
  rw [h]
  by_cases hc : TrimSpace s = cur <;> simp [asString, Outcome.bind, hc]

theorem updateStringField_none (d : FieldData) (key cur : String) (changed : Bool)
    (h : d.GetOk key = none) :
    updateStringField d key cur changed = .ret (cur, changed) := by
  unfold updateStringField
  rw [h]

theorem updateStringField_cases (d : FieldData) (key cur : String) (changed : Bool)
    (hstr : ∀ v, d.GetOk key = some v → ∃ s, v = .str s) :
    ∃ nv, updateStringField d key cur changed = .ret (nv, changed || (nv != cur))
      ∧ (∀ s, d.GetOk key = some (.str s) → nv = TrimSpace s)
      ∧ (d.GetOk key = none → nv = cur) := by
  cases hg : d.GetOk key with
  | none =>
    exact ⟨cur, by simp [updateStringField_none d key cur changed hg], by simp, by simp⟩
  | some v =>
    obtain ⟨s, rfl⟩ := hstr v hg
    refine ⟨TrimSpace s, updateStringField_str d key cur s changed hg, ?_, by simp⟩
    intro s1 hs1
    cases hs1
    rfl

theorem updateStringField_ret (d : FieldData) (key cur nv : String) (changed ch : Bool)
    (h : updateStringField d key cur changed = .ret (nv, ch)) :
    (d.GetOk key = none ∧ nv = cur) ∨ ∃ s, d.GetOk key = some (.str s) ∧ nv = TrimSpace s := by
  cases hg : d.GetOk key with
  | none =>
    rw [updateStringField_none d key cur changed hg] at h
    cases h
    exact Or.inl ⟨rfl, rfl⟩
  | some v =>
    cases v with
    | str s =>
      rw [updateStringField_str d key cur s changed hg] at h
      cases h
      exact Or.inr ⟨s, rfl, rfl⟩
    | strSlice l => simp [updateStringField, hg, asString, Outcome.bind] at h
    | time t => simp [updateStringField, hg, asString, Outcome.bind] at h

theorem Config_Update_endpoint (c c1 : Config) (d : FieldData) (ch : Bool)
    (err : Option GoError) (h : c.Update (some d) = .ret (c1, ch, err)) :
    (d.GetOk "endpoint_url" = none ∧ c1.EndpointURL = c.EndpointURL)
      ∨ ∃ s, d.GetOk "endpoint_url" = some (.str s) ∧ c1.EndpointURL = TrimSpace s := by
  unfold Config.Update at h
  cases h1 : updateStringField d "endpoint_url" c.EndpointURL false with
  | panic m => simp [h1, Outcome.bind] at h
  | ret r1 =>
    obtain ⟨e, b1⟩ := r1
    cases h2 : updateStringField d "client_id" c.ClientID b1 with
    | panic m => simp [h1, h2, Outcome.bind] at h
    | ret r2 =>
      cases h3 : updateStringField d "username" c.Username r2.2 with
      | panic m => simp [h1, h2, h3, Outcome.bind] at h
      | ret r3 =>
        cases h4 : updateStringField d "password" c.Password r3.2 with
        | panic m => simp [h1, h2, h3, h4, Outcome.bind] at h
        | ret r4 =>
          simp only [h1, h2, h3, h4, Outcome.bind, Outcome.ret.injEq, Prod.mk.injEq] at h
          have he : c1.EndpointURL = e := by rw [← h.1]
          rw [he]
          exact updateStringField_ret d "endpoint_url" c.EndpointURL e false b1 h1

theorem applyUpdates_endpoint_nonempty (ds : List (Option FieldData)) :
    ∀ (c0 c : Config), c0.EndpointURL ≠ "" →
      (∀ d, some d ∈ ds → ∀ s, d.GetOk "endpoint_url" = some (.str s) → TrimSpace s ≠ "") →
      applyUpdates c0 ds = .ret c → c.EndpointURL ≠ "" := by
  induction ds with
  | nil =>
    intro c0 c h0 _ h
    simp only [applyUpdates, Outcome.ret.injEq] at h
    rw [← h]
    exact h0
  | cons d ds ih =>
    intro c0 c h0 hds h
    simp only [applyUpdates] at h
    cases hu : c0.Update d with
    | panic m => simp [hu, Outcome.bind] at h
    | ret r =>
      obtain ⟨c1, ch, err⟩ := r
      simp only [hu, Outcome.bind] at h
      refine ih c1 c ?_ (fun d1 hd1 => hds d1 (List.mem_cons_of_mem _ hd1)) h
      cases d with
      | none =>
        simp only [Config.Update, Outcome.ret.injEq, Prod.mk.injEq] at hu
        rw [← hu.1]
        exact h0
      | some d1 =>
        rcases Config_Update_endpoint c0 c1 d1 ch err hu with ⟨_, h2⟩ | ⟨s, hs, h2⟩
        · rw [h2]
          exact h0
        · rw [h2]
          exact hds d1 (List.mem_cons_self _ _) s hs

theorem lookup_cons_ite {β : Type} (key k : String) (v : β) (l : List (String × β)) :
    List.lookup key ((k, v) :: l) = if key = k then some v else List.lookup key l := by
  by_cases h : key = k
  · subst h
    simp [List.lookup]
  · have hb : (key == k) = false := by simpa using h
    simp [List.lookup, hb, h]

theorem tokenParams_lookup (clientID service scope key : String) :
    (tokenParams clientID service scope).lookup key =
      if key = "client_id" ∧ clientID ≠ "" then some [clientID]
      else if key = "service" ∧ service ≠ "" then some [service]
      else if key = "scope" ∧ scope ≠ "" then some [scope]
      else none := by
  by_cases hc : clientID = "" <;> by_cases hs : service = "" <;> by_cases hp : scope = ""
    <;> by_cases k1 : key = "client_id" <;> by_cases k2 : key = "service"
    <;> by_cases k3 : key = "scope"
    <;> simp [tokenParams, Values.Add, Values.lookup, lookup_cons_ite, hc, hs, hp, k1, k2, k3]

theorem Token_trace_httpDo (env : Env) (w : World)
    (endpoint clientID username password service scope : String) (req : Request) :
    Event.httpDo req
        ∈ (registryClient.Token env w endpoint clientID username password service scope).2.trace
      → Event.httpDo req ∈ w.trace
        ∨ req = tokenRequest endpoint clientID username password service scope := by
  simp only [registryClient.Token]
  repeat' split
  all_goals (simp [World.log]; try tauto)

theorem foldl_append_singleton {α β : Type} (f : α → β) (l : List α) :
    ∀ init : List β, l.foldl (fun acc s => acc ++ [f s]) init = init ++ l.map f := by
  induction l with
  | nil => intro init; simp
  | cons a l ih => intro init; simp [ih]

theorem tokenScopesOf_eq_map (access : List jwtAccess) :
    tokenScopesOf access = access.map jwtAccess.String := by
  unfold tokenScopesOf
  rw [foldl_append_singleton]
  simp

theorem Token_some (env : Env) (w : World)
    (endpoint clientID username password service scope : String) (t : RegistryToken)
    (h : (registryClient.Token env w endpoint clientID username password service scope).1.1
      = some t) :
    ∃ resp data token claims,
      env.Do w.httpCalls (tokenRequest endpoint clientID username password service scope)
        = .ok resp
      ∧ env.decodeTokenResponse (resp.Body.take (5 <<< 20)) = .ok data
      ∧ env.ParseSigned data.Token = .ok token
      ∧ env.UnsafeClaimsWithoutVerification token = .ok claims
      ∧ t.TokenScopes = tokenScopesOf claims.Access := by
  simp only [registryClient.Token] at h
  split at h
  · simp at h
  · split at h
    · simp at h
    · split at h
      · simp at h
      · split at h
        · simp at h
        · rename_i resp hdo
          split at h
          · simp at h
          · split at h
            · simp at h
            · rename_i data hdec
              split at h
              · simp at h
              · rename_i token hparse
                split at h
                · simp at h
                · rename_i claims hclaims
                  refine ⟨resp, data, token, claims, hdo, hdec, hparse, hclaims, ?_⟩
                  simp only [Option.some.injEq] at h
                  rw [← h]

theorem containsChars_append_left (needle post : List Char) :
    ∀ pre : List Char, containsChars needle (pre ++ (needle ++ post)) = true := by
  intro pre
  induction pre with
  | nil =>
    cases hn : needle ++ post with
    | nil =>
      have h1 : needle = [] := (List.append_eq_nil.mp hn).1
      simp [containsChars, h1]
    | cons c cs =>
      have hp : needle.isPrefixOf (c :: cs) = true := by
        rw [← hn, List.isPrefixOf_iff_prefix]
        exact List.prefix_append needle post
      simp [containsChars, hp]
  | cons c pre ih =>
    rw [List.cons_append, containsChars, ih, Bool.or_true]

theorem Contains_middle (a b c : String) : Contains (a ++ b ++ c) b = true := by
  unfold Contains
  simp only [String.data_append, List.append_assoc]
  exact containsChars_append_left b.data c.data a.data

theorem flatMap_id_of_forall {α : Type} (f : α → List α) (l : List α)
    (h : ∀ c ∈ l, f c = [c]) : l.flatMap f = l := by
  induction l with
  | nil => rfl
  | cons a l ih =>
    rw [List.flatMap_cons, h a (List.mem_cons_self _ _),
      ih (fun c hc => h c (List.mem_cons_of_mem _ hc))]
    rfl

theorem appendEscapedRune_plain (table : Char → Bool) (c : Char)
    (hp : IsPrint table c = true) (hq : c.toNat ≠ 0x22) (hb : c.toNat ≠ 0x5C) :
    appendEscapedRune table c = [c] := by
  simp [appendEscapedRune, hp, hq, hb]

theorem Quote_plain (table : Char → Bool) (s : String)
    (h : ∀ c ∈ s.data, IsPrint table c = true ∧ c.toNat ≠ 0x22 ∧ c.toNat ≠ 0x5C) :
    Quote table s = String.singleton (Char.ofNat 0x22) ++ s ++ String.singleton (Char.ofNat 0x22) := by
  have hf : s.data.flatMap (appendEscapedRune table) = s.data :=
    flatMap_id_of_forall _ _
      (fun c hc => appendEscapedRune_plain table c (h c hc).1 (h c hc).2.1 (h c hc).2.2)
  apply String.ext
  simp [Quote, hf, String.singleton]

theorem Token_non200 (env : Env) (w : World)
    (endpoint clientID username password service scope : String) (resp : HTTPResponse)
    (hne : endpoint ≠ "")
    (hparse : env.urlParse (endpoint ++ "/token") = none)
    (hreq : env.newRequest (endpoint ++ "/token") (tokenParams clientID service scope) = none)
    (hdo : env.Do w.httpCalls (tokenRequest endpoint clientID username password service scope)
      = .ok resp)
    (hstatus : resp.StatusCode ≠ 200) :
    registryClient.Token env w endpoint clientID username password service scope
      = ((none, some (.errorString ("error getting auth token for "
            ++ Quote env.isPrintTable scope ++ ": " ++ resp.Status))),
         w.log (.httpDo (tokenRequest endpoint clientID username password service scope))) := by
  simp [registryClient.Token, hne, hparse, hreq, hdo, hstatus]

theorem storageGet_world (env : Env) (w : World) (key : String) :
    (storageGet env w key).2 = w.log (.storageGet key) := by
  unfold storageGet
  cases env.storageGetErr key <;> rfl

theorem backend_Config_world (env : Env) (w : World) :
    (backend.Config env w).2 = w.log (.storageGet "config") := by
  have h := storageGet_world env w "config"
  unfold backend.Config
  cases hsg : storageGet env w "config" with
  | mk r w1 =>
    rw [hsg] at h
    simp only [] at h
    subst h
    cases r with
    | error err => rfl
    | ok entry =>
      cases entry with
      | none => rfl
      | some entry =>
        simp only []
        split
        · rfl
        · split <;> rfl

theorem backend_Role_world (env : Env) (w : World) (roleName : String) :
    (backend.Role env w roleName).2 = w.log (.storageGet (rolesPath ++ "/" ++ roleName)) := by
  have h := storageGet_world env w (rolesPath ++ "/" ++ roleName)
  unfold backend.Role
  cases hsg : storageGet env w (rolesPath ++ "/" ++ roleName) with
  | mk r w1 =>
    rw [hsg] at h
    simp only [] at h
    subst h
    cases r with
    | error err => rfl
    | ok entry =>
      cases entry with
      | none => rfl
      | some entry =>
        simp only []
        split
        · rfl
        · split <;> rfl

theorem credReadAttempt_empty_endpoint (env : Env) (engine : Config) (role : Role)
    (st : Option RegistryToken × World) (hempty : engine.EndpointURL = "") :
    credReadAttempt (NewRegistryClient env) engine role st
      = (some (.errorString "unable to query registry without endpoint url defined"),
          (none, st.2.log (.tokenCall engine.EndpointURL engine.ClientID engine.Username
            engine.Password role.Service (Join role.Scopes " ")))) := by
  simp [credReadAttempt, NewRegistryClient, registryClient.Token, hempty]

theorem retryFib_empty_endpoint (env : Env) (engine : Config) (role : Role) (w : World)
    (hempty : engine.EndpointURL = "") :
    ∃ err, retryFib (credReadAttempt (NewRegistryClient env) engine role) (none, w)
      = (some err, (none,
          World.mk w.store (w.trace ++ List.replicate 6
              (Event.tokenCall engine.EndpointURL engine.ClientID engine.Username engine.Password
                role.Service (Join role.Scopes " "))))) := by
  refine ⟨.errorString "unable to query registry without endpoint url defined", ?_⟩
  simp [retryFib, Fibonacci, FibonacciBackoff.Retry, retryLoop,
    credReadAttempt_empty_endpoint env engine role _ hempty, World.log, List.replicate]

theorem Role_Update_scopes_changed (r r1 : Role) (d : FieldData) (l : List String)
    (changed : Bool) (err : Option GoError)
    (hscopes : d.GetOk "scopes" = some (.strSlice l))
    (h : r.Update (some d) = .ret (r1, changed, err)) : changed = true ∧ r1.Scopes = l := by
  unfold Role.Update at h
  cases h1 : updateStringField d "name" r.Name false with
  | panic m => simp [h1, Outcome.bind] at h
  | ret a =>
    cases h2 : updateStringField d "service" r.Service a.2 with
    | panic m => simp [h1, h2, Outcome.bind] at h
    | ret b =>
      simp only [h1, h2, hscopes, asStringSlice, Outcome.bind, Outcome.ret.injEq,
        Prod.mk.injEq] at h
      exact ⟨h.2.1.symm, by rw [← h.1]⟩

theorem counted_fail {σ : Type} (op : σ → Option GoError × σ)
    (hfail : ∀ s, (op s).1 ≠ none) (s : σ) (n : Nat) :
    ∃ e s1, counted op (s, n) = (some e, (s1, n + 1)) := by
  cases h : (op s).1 with
  | none => exact absurd h (hfail s)
  | some e => exact ⟨e, (op s).2, by simp [counted, h]⟩

theorem retryLoop_counted_fail {σ : Type} (op : σ → Option GoError × σ)
    (hfail : ∀ s, (op s).1 ≠ none) :
    ∀ (k : Nat) (err : GoError) (s : σ) (n : Nat),
      ∃ e s1, retryLoop (counted op) k err (s, n) = (some e, (s1, n + k)) := by
  intro k
  induction k with
  | zero => intro err s n; exact ⟨err, s, rfl⟩
  | succ k ih =>
    intro err s n
    obtain ⟨e, s1, h1⟩ := counted_fail op hfail s n
    obtain ⟨e2, s2, h2⟩ := ih e s1 (n + 1)
    refine ⟨e2, s2, ?_⟩
    simp only [retryLoop, h1, h2]
    have : n + 1 + k = n + (k + 1) := by omega
    rw [this]

theorem retryLoop_counted_erase {σ : Type} (op : σ → Option GoError × σ) :
    ∀ (k : Nat) (err : GoError) (s : σ) (n : Nat),
      (retryLoop (counted op) k err (s, n)).1 = (retryLoop op k err s).1
      ∧ (retryLoop (counted op) k err (s, n)).2.1 = (retryLoop op k err s).2 := by
  intro k
  induction k with
  | zero => intro err s n; exact ⟨rfl, rfl⟩
  | succ k ih =>
    intro err s n
    cases h : op s with
    | mk r s1 =>
      cases r with
      | none => simp [retryLoop, counted, h]
      | some e =>
        have := ih e s1 (n + 1)
        simpa [retryLoop, counted, h] using this

theorem Role_Update_service_absent (r r1 : Role) (d : FieldData) (changed : Bool)
    (err : Option GoError) (habsent : d.GetOk "service" = none)
    (h : r.Update (some d) = .ret (r1, changed, err)) : r1.Service = r.Service := by
  unfold Role.Update at h
  cases h1 : updateStringField d "name" r.Name false with
  | panic m => simp [h1, Outcome.bind] at h
  | ret a =>
    simp only [h1, Outcome.bind,
      updateStringField_none d "service" r.Service a.2 habsent] at h
    cases h3 : d.GetOk "scopes" with
    | none =>
      simp only [h3, Outcome.bind, Outcome.ret.injEq, Prod.mk.injEq] at h
      rw [← h.1]
    | some v =>
      cases v with
      | strSlice l =>
        simp only [h3, asStringSlice, Outcome.bind, Outcome.ret.injEq, Prod.mk.injEq] at h
        rw [← h.1]
      | str x => simp [h3, asStringSlice, Outcome.bind] at h
      | time x => simp [h3, asStringSlice, Outcome.bind] at h

theorem splitChars_no_sep (sep : Char) (a : List Char) (h : sep ∉ a) :
    splitChars sep a = [a] := by
  induction a with
  | nil => rfl
  | cons c a ih =>
    have hc : c ≠ sep := fun e => h (by simp [e])
    have ha : sep ∉ a := fun e => h (List.mem_cons_of_mem _ e)
    simp [splitChars, hc, ih ha]

theorem splitChars_append_sep (sep : Char) (a rest : List Char) (h : sep ∉ a) :
    splitChars sep (a ++ sep :: rest) = a :: splitChars sep rest := by
  induction a with
  | nil => simp [splitChars]
  | cons c a ih =>
    have hc : c ≠ sep := fun e => h (by simp [e])
    have ha : sep ∉ a := fun e => h (List.mem_cons_of_mem _ e)
    simp [splitChars, hc, ih ha]

theorem splitChars_joinChars (sep : Char) :
    ∀ ls : List (List Char), ls ≠ [] → (∀ a ∈ ls, sep ∉ a) →
      splitChars sep (joinChars [sep] ls) = ls := by
  intro ls
  induction ls with
  | nil => intro h; exact absurd rfl h
  | cons a rest ih =>
    intro _ hall
    cases rest with
    | nil =>
      simp only [joinChars]
      exact splitChars_no_sep sep a (hall a (List.mem_cons_self _ _))
    | cons b rest =>
      have hrest := ih (by simp) (fun x hx => hall x (List.mem_cons_of_mem _ hx))
      simp only [joinChars, List.append_assoc, List.singleton_append]
      rw [splitChars_append_sep sep a _ (hall a (List.mem_cons_self _ _)), hrest]

theorem SplitSpace_Join (scopes : List String) (hne : scopes ≠ [])
    (hall : ∀ s ∈ scopes, ' ' ∉ s.data) : SplitSpace (Join scopes " ") = scopes := by
  unfold SplitSpace Join
  have hd : (" " : String).data = [' '] := rfl
  simp only [hd]
  rw [splitChars_joinChars ' ' (scopes.map String.data) (by simpa using hne)
    (by
      intro a ha
      obtain ⟨s, hs, rfl⟩ := List.mem_map.mp ha
      exact hall s hs)]
  rw [List.map_map]
  have hid : (String.mk ∘ String.data) = id := by
    funext s
    rfl
  rw [hid, List.map_id]

theorem Token_some_RequestScopes (env : Env) (w : World)
    (endpoint clientID username password service scope : String) (t : RegistryToken)
    (h : (registryClient.Token env w endpoint clientID username password service scope).1.1
      = some t) : t.RequestScopes = SplitSpace scope := by
  simp only [registryClient.Token] at h
  repeat' split at h
  all_goals first
    | (simp only [Option.some.injEq] at h; rw [← h])
    | simp at h

theorem requests_log_httpDo (w : World) (req : Request) :
    (w.log (.httpDo req)).requests = w.requests ++ [req] := by
  simp [World.requests, World.log, List.filterMap_append]

theorem Token_requests_sent (env : Env) (w : World)
    (endpoint clientID username password service scope : String)
    (hne : endpoint ≠ "")
    (hparse : env.urlParse (endpoint ++ "/token") = none)
    (hreq : env.newRequest (endpoint ++ "/token") (tokenParams clientID service scope) = none) :
    (registryClient.Token env w endpoint clientID username password service scope).2.requests
      = w.requests ++ [tokenRequest endpoint clientID username password service scope] := by
  simp only [registryClient.Token, beq_iff_eq, hne, if_false, hparse, hreq]
  repeat' split
  all_goals simp [World.requests, World.log, List.filterMap_append]

theorem Token_requests_not_sent (env : Env) (w : World)
    (endpoint clientID username password service scope : String)
    (h : endpoint = "" ∨ env.urlParse (endpoint ++ "/token") ≠ none
      ∨ env.newRequest (endpoint ++ "/token") (tokenParams clientID service scope) ≠ none) :
    (registryClient.Token env w endpoint clientID username password service scope).2.requests
      = w.requests := by
  simp only [registryClient.Token]
  by_cases hne : endpoint = ""
  · simp [hne]
  · cases hp : env.urlParse (endpoint ++ "/token") with
    | some e => simp [hne]
    | none =>
      cases hr : env.newRequest (endpoint ++ "/token") (tokenParams clientID service scope) with
      | some e => simp [hne]
      | none =>
        rcases h with h | h | h
        · exact absurd h hne
        · exact absurd hp h
        · exact absurd hr h

theorem retryLoop_invariant {σ : Type} (P : σ → Prop) (op : σ → Option GoError × σ)
    (hop : ∀ s, P (op s).2) :
    ∀ (k : Nat) (err : GoError) (s : σ), P s → P (retryLoop op k err s).2 := by
  intro k
  induction k with
  | zero => intro err s hs; exact hs
  | succ k ih =>
    intro err s _
    have h1 := hop s
    cases h : op s with
    | mk r s1 =>
      rw [h] at h1
      cases r with
      | none => simpa [retryLoop, h] using h1
      | some e =>
        have := ih e s1 h1
        simpa [retryLoop, h] using this

theorem retryFib_invariant {σ : Type} (P : σ → Prop) (op : σ → Option GoError × σ)
    (hop : ∀ s, P (op s).2) (s : σ) : P (retryFib op s).2 := by
  have h1 := hop s
  simp only [retryFib, Fibonacci, FibonacciBackoff.Retry]
  cases h : op s with
  | mk r s1 =>
    rw [h] at h1
    cases r with
    | none => exact h1
    | some e => exact retryLoop_invariant P op hop _ e s1 h1

theorem credReadAttempt_RequestScopes (env : Env) (engine : Config) (role : Role)
    (st : Option RegistryToken × World) (t : RegistryToken)
    (h : (credReadAttempt (NewRegistryClient env) engine role st).2.1 = some t) :
    t.RequestScopes = SplitSpace (Join role.Scopes " ") := by
  simp only [credReadAttempt, NewRegistryClient] at h
  exact Token_some_RequestScopes env _ _ _ _ _ _ _ t h

theorem Token_request_scopes_round_trip (env : Env) (w : World)
    (endpoint clientID username password service : String) (scopes : List String)
    (t : RegistryToken)
    (h : (registryClient.Token env w endpoint clientID username password service
      (Join scopes " ")).1.1 = some t) :
    (scopes ≠ [] → (∀ s ∈ scopes, s ≠ "" ∧ ' ' ∉ s.data) → t.RequestScopes = scopes)
      ∧ (scopes = [] → t.RequestScopes = [""] ∧ t.RequestScopes ≠ scopes) := by
  have hrs := Token_some_RequestScopes env w endpoint clientID username password service
    (Join scopes " ") t h
  constructor
  · intro hne hall
    rw [hrs]
    exact SplitSpace_Join scopes hne (fun s hs => (hall s hs).2)
  · intro hnil
    subst hnil
    rw [hrs]
    exact ⟨by decide, by decide⟩

/-! ## Claims -/

/-- C8: for every configuration and every non-nil field data whose supplied
values of the four fields are strings, `Update` returns normally with a nil error; each of
endpoint_url, client_id, username and password that is present holds the
trimmed supplied value, each absent one keeps its prior value, and `changed`
is true exactly when some field differs from its value before the call. -/
theorem config_update_trims_and_reports_change (c : Config) (d : FieldData)
    (hstr : ∀ k ∈ ["endpoint_url", "client_id", "username", "password"],
      ∀ v, d.GetOk k = some v → ∃ s, v = .str s) :
    ∃ c1 changed, c.Update (some d) = .ret (c1, changed, none)
      ∧ (∀ s, d.GetOk "endpoint_url" = some (.str s) → c1.EndpointURL = TrimSpace s)
      ∧ (d.GetOk "endpoint_url" = none → c1.EndpointURL = c.EndpointURL)
      ∧ (∀ s, d.GetOk "client_id" = some (.str s) → c1.ClientID = TrimSpace s)
      ∧ (d.GetOk "client_id" = none → c1.ClientID = c.ClientID)
      ∧ (∀ s, d.GetOk "username" = some (.str s) → c1.Username = TrimSpace s)
      ∧ (d.GetOk "username" = none → c1.Username = c.Username)
      ∧ (∀ s, d.GetOk "password" = some (.str s) → c1.Password = TrimSpace s)
      ∧ (d.GetOk "password" = none → c1.Password = c.Password)
      ∧ (changed = true ↔ (c1.EndpointURL ≠ c.EndpointURL ∨ c1.ClientID ≠ c.ClientID
            ∨ c1.Username ≠ c.Username ∨ c1.Password ≠ c.Password)) := by
  obtain ⟨e, he, he1, he2⟩ :=
    updateStringField_cases d "endpoint_url" c.EndpointURL false
      (hstr "endpoint_url" (by simp))
  obtain ⟨i, hi, hi1, hi2⟩ :=
    updateStringField_cases d "client_id" c.ClientID (false || (e != c.EndpointURL))
      (hstr "client_id" (by simp))
  obtain ⟨u, hu, hu1, hu2⟩ :=
    updateStringField_cases d "username" c.Username
      ((false || (e != c.EndpointURL)) || (i != c.ClientID)) (hstr "username" (by simp))
  obtain ⟨p, hp, hp1, hp2⟩ :=
    updateStringField_cases d "password" c.Password
      (((false || (e != c.EndpointURL)) || (i != c.ClientID)) || (u != c.Username))
      (hstr "password" (by simp))
  refine ⟨⟨e, i, u, p⟩,
    (((false || (e != c.EndpointURL)) || (i != c.ClientID)) || (u != c.Username))
      || (p != c.Password), ?_, he1, he2, hi1, hi2, hu1, hu2, hp1, hp2, ?_⟩
  · simp only [Config.Update, he, hi, hu, hp, Outcome.bind]
  · simp [or_assoc]

/-- Witness of C8: the default configuration updated with an endpoint padded
with blanks and a user name; the other two fields are not supplied. -/
theorem config_update_trims_and_reports_change_witness :
    ∃ c1 changed,
      DefaultConfig.Update (some sampleConfigFields) = .ret (c1, changed, none)
      ∧ c1 = ⟨"https://r.example", "", "bob", ""⟩ ∧ changed = true := by
  have hstr : ∀ k ∈ ["endpoint_url", "client_id", "username", "password"],
      ∀ v, sampleConfigFields.GetOk k = some v → ∃ s, v = .str s := by
    intro k _ v h
    simp only [sampleConfigFields, FieldData.GetOk, List.lookup] at h
    split at h
    · cases h
    · split at h
      · cases h; exact ⟨_, rfl⟩
      · split at h
        · cases h; exact ⟨_, rfl⟩
        · cases h
  obtain ⟨c1, changed, h, he, _, _, hi, hu, _, _, hp, hch⟩ :=
    config_update_trims_and_reports_change DefaultConfig sampleConfigFields hstr
  have h1 := he " https://r.example " (by rfl)
  have h2 := hi (by rfl)
  have h3 := hu "bob" (by rfl)
  have h4 := hp (by rfl)
  have t1 : TrimSpace " https://r.example " = "https://r.example" := by decide
  have t3 : TrimSpace "bob" = "bob" := by decide
  refine ⟨c1, changed, h, ?_, ?_⟩
  · cases c1
    simp only [Config.mk.injEq]
    simp only [] at h1 h2 h3 h4
    rw [h1, h2, h3, h4, t1, t3]
    exact ⟨rfl, rfl, rfl, rfl⟩
  · rw [hch]
    left
    rw [h1, t1]
    decide
/-- C9: when reading "config" from the storage does not fail and finds no
entry, or an entry with an empty value, `backend.Config` returns without error
the configuration with the default endpoint and empty client id, user name and
password. -/
theorem backend_config_defaults (env : Env) (w : World)
    (hget : env.storageGetErr "config" = none)
    (hentry : ∀ e, w.store.find? (fun e => e.Key == "config") = some e → e.Value = []) :
    (backend.Config env w).1 = .ok ⟨"https://auth.docker.io", "", "", ""⟩ := by
  unfold backend.Config storageGet
  simp only [hget]
  cases hf : w.store.find? (fun e => e.Key == "config") with
  | none => rfl
  | some e =>
    have hv := hentry e hf
    simp [hv, DefaultConfig, defaultEndpoint]

/-- Witness of C9: a storage holding only an entry with an empty value under
"config". -/
theorem backend_config_defaults_witness :
    (backend.Config (sampleEnv ⟨"x", "y", "z", "t"⟩ ciRole serverError sampleData sampleClaims)
        ⟨[⟨"config", []⟩], []⟩).1
      = .ok ⟨"https://auth.docker.io", "", "", ""⟩ :=
  backend_config_defaults _ _ rfl (by
    intro e h
    have h1 : e = ⟨"config", []⟩ := by
      simpa [List.find?] using h.symm
    rw [h1])
/-- Counterexample to C10: one update of the default configuration whose
endpoint_url is a single blank leaves a configuration with an empty
EndpointURL. -/
theorem endpoint_becomes_empty_after_blank_update :
    ∃ c, applyUpdates DefaultConfig [some blankEndpointFields] = .ret c
      ∧ c.EndpointURL = "" :=
  ⟨⟨"", "", "", ""⟩, by decide, rfl⟩

/-- C10 as amended: every configuration reached from the default one by a
finite sequence of updates, none of which supplies an endpoint_url that is
empty after trimming, has a non-empty EndpointURL. -/
theorem endpoint_nonempty_without_blank_update (ds : List (Option FieldData)) (c : Config)
    (hds : ∀ d, some d ∈ ds → ∀ s, d.GetOk "endpoint_url" = some (.str s) → TrimSpace s ≠ "")
    (hreach : applyUpdates DefaultConfig ds = .ret c) : c.EndpointURL ≠ "" :=
  applyUpdates_endpoint_nonempty ds DefaultConfig c (by decide) hds hreach

/-- Witness of the amended C10: a nil update followed by the sample update. -/
theorem endpoint_nonempty_without_blank_update_witness :
    applyUpdates DefaultConfig [none, some sampleConfigFields]
        = .ret ⟨"https://r.example", "", "bob", ""⟩
      ∧ (⟨"https://r.example", "", "bob", ""⟩ : Config).EndpointURL ≠ "" :=
  ⟨by decide,
   endpoint_nonempty_without_blank_update [none, some sampleConfigFields] _
    (by
      intro d hd s hs
      have hd1 : d = sampleConfigFields := by simpa using hd
      subst hd1
      have hs1 : s = " https://r.example " := by
        have h0 : sampleConfigFields.GetOk "endpoint_url"
            = some (.str " https://r.example ") := by rfl
        rw [h0] at hs
        simpa using hs.symm
      subst hs1
      decide)
    (by decide)⟩

/-- C4: with an empty endpoint `Token` returns a nil token and a non-nil error
and leaves the world as it was: no HTTP request is made, whatever the other
arguments. -/
theorem token_empty_endpoint_no_request (env : Env) (w : World)
    (clientID username password service scope : String) :
    (registryClient.Token env w "" clientID username password service scope).1.1 = none
      ∧ (registryClient.Token env w "" clientID username password service scope).1.2 ≠ none
      ∧ (registryClient.Token env w "" clientID username password service scope).2 = w
      ∧ (registryClient.Token env w "" clientID username password service scope).2.httpCalls
          = w.httpCalls := by
  simp [registryClient.Token]
/-- C5: a call of `Token` with a non-empty endpoint that parses and for
which the request can be built hands exactly one new request to the HTTP
transport, a GET of the endpoint's "/token"; the query parameters of that
request hold the key client_id exactly when clientID is not empty, service
exactly when service is not empty and scope exactly when scope is not empty,
each present key with exactly the input value, and no other key. In every
other case `Token` sends no request. -/
theorem token_query_parameters (env : Env) (w : World)
    (endpoint clientID username password service scope key : String) :
    (endpoint ≠ "" → env.urlParse (endpoint ++ "/token") = none →
      env.newRequest (endpoint ++ "/token") (tokenParams clientID service scope) = none →
      ∃ req,
        (registryClient.Token env w endpoint clientID username password service
            scope).2.requests = w.requests ++ [req]
        ∧ req.Method = "GET" ∧ req.URL = endpoint ++ "/token"
        ∧ (req.Query.lookup "client_id" = some [clientID] ↔ clientID ≠ "")
        ∧ (req.Query.lookup "client_id" = none ↔ clientID = "")
        ∧ (req.Query.lookup "service" = some [service] ↔ service ≠ "")
        ∧ (req.Query.lookup "service" = none ↔ service = "")
        ∧ (req.Query.lookup "scope" = some [scope] ↔ scope ≠ "")
        ∧ (req.Query.lookup "scope" = none ↔ scope = "")
        ∧ (key ≠ "client_id" → key ≠ "service" → key ≠ "scope" →
            req.Query.lookup key = none))
    ∧ ((endpoint = "" ∨ env.urlParse (endpoint ++ "/token") ≠ none
          ∨ env.newRequest (endpoint ++ "/token") (tokenParams clientID service scope) ≠ none) →
        (registryClient.Token env w endpoint clientID username password service
            scope).2.requests = w.requests) := by
  refine ⟨?_, Token_requests_not_sent env w endpoint clientID username password service scope⟩
  intro hne hparse hreq
  refine ⟨tokenRequest endpoint clientID username password service scope,
    Token_requests_sent env w endpoint clientID username password service scope hne hparse hreq,
    rfl, rfl, ?_, ?_, ?_, ?_, ?_, ?_, ?_⟩
  · show (tokenParams clientID service scope).lookup "client_id" = some [clientID] ↔ _
    rw [tokenParams_lookup]; by_cases hc : clientID = "" <;> simp [hc]
  · show (tokenParams clientID service scope).lookup "client_id" = none ↔ _
    rw [tokenParams_lookup]; by_cases hc : clientID = "" <;> simp [hc]
  · show (tokenParams clientID service scope).lookup "service" = some [service] ↔ _
    rw [tokenParams_lookup]; by_cases hc : service = "" <;> simp [hc]
  · show (tokenParams clientID service scope).lookup "service" = none ↔ _
    rw [tokenParams_lookup]; by_cases hc : service = "" <;> simp [hc]
  · show (tokenParams clientID service scope).lookup "scope" = some [scope] ↔ _
    rw [tokenParams_lookup]; by_cases hc : scope = "" <;> simp [hc]
  · show (tokenParams clientID service scope).lookup "scope" = none ↔ _
    rw [tokenParams_lookup]; by_cases hc : scope = "" <;> simp [hc]
  · intro k1 k2 k3
    show (tokenParams clientID service scope).lookup key = none
    rw [tokenParams_lookup]
    simp [k1, k2, k3]

/-- Witness of C5: a request with all three parameters, sent with exactly
these three keys in the order client_id, service, scope, and a request with
only a service, sent with that key alone. -/
theorem token_query_parameters_witness :
    (registryClient.Token grantingEnv emptyWorld "https://auth.docker.io" "vault" "" ""
        "registry.docker.io" "repository:myimg:pull").2.requests
      = [⟨"GET", "https://auth.docker.io/token",
          ⟨[("client_id", ["vault"]), ("service", ["registry.docker.io"]),
            ("scope", ["repository:myimg:pull"])]⟩, none⟩]
    ∧ (registryClient.Token grantingEnv emptyWorld "https://auth.docker.io" "" "" ""
        "registry.docker.io" "").2.requests
      = [⟨"GET", "https://auth.docker.io/token", ⟨[("service", ["registry.docker.io"])]⟩, none⟩]
    ∧ ∃ req,
        (registryClient.Token grantingEnv emptyWorld "https://auth.docker.io" "vault" "" ""
            "registry.docker.io" "").2.requests = emptyWorld.requests ++ [req]
        ∧ req.Method = "GET" ∧ req.URL = "https://auth.docker.io" ++ "/token"
        ∧ (req.Query.lookup "client_id" = some ["vault"] ↔ "vault" ≠ "")
        ∧ (req.Query.lookup "client_id" = none ↔ "vault" = "")
        ∧ (req.Query.lookup "service" = some ["registry.docker.io"]
            ↔ "registry.docker.io" ≠ "")
        ∧ (req.Query.lookup "service" = none ↔ "registry.docker.io" = "")
        ∧ (req.Query.lookup "scope" = some [""] ↔ "" ≠ "")
        ∧ (req.Query.lookup "scope" = none ↔ "" = "")
        ∧ ("realm" ≠ "client_id" → "realm" ≠ "service" → "realm" ≠ "scope" →
            req.Query.lookup "realm" = none) :=
  ⟨by decide, by decide,
   (token_query_parameters grantingEnv emptyWorld "https://auth.docker.io" "vault" "" ""
      "registry.docker.io" "" "realm").1 (by decide) rfl rfl⟩

/-- C7: whenever `Token` returns a token, the transport, the decoder and the
JWT library delivered claims such that TokenScopes has the length of the
access list and its i-th element is type, ":", name, ":" and the actions of
the i-th access record joined by ","; the list is a function of the claims
alone, the requested scope does not enter it. -/
theorem token_scopes_from_claims (env : Env) (w : World)
    (endpoint clientID username password service scope : String) (t : RegistryToken)
    (h : (registryClient.Token env w endpoint clientID username password service scope).1.1
      = some t) :
    ∃ resp data token claims,
      env.Do w.httpCalls (tokenRequest endpoint clientID username password service scope)
        = .ok resp
      ∧ env.decodeTokenResponse (resp.Body.take (5 <<< 20)) = .ok data
      ∧ env.ParseSigned data.Token = .ok token
      ∧ env.UnsafeClaimsWithoutVerification token = .ok claims
      ∧ t.TokenScopes.length = claims.Access.length
      ∧ (∀ (i : Nat) (a : jwtAccess), claims.Access[i]? = some a →
          t.TokenScopes[i]? = some (a.Typ ++ ":" ++ a.Name ++ ":" ++ Join a.Actions ","))
      ∧ t.TokenScopes = claims.Access.map jwtAccess.String := by
  obtain ⟨resp, data, token, claims, h1, h2, h3, h4, h5⟩ :=
    Token_some env w endpoint clientID username password service scope t h
  rw [tokenScopesOf_eq_map] at h5
  refine ⟨resp, data, token, claims, h1, h2, h3, h4, ?_, ?_, h5⟩
  · rw [h5, List.length_map]
  · intro i a ha
    rw [h5, List.getElem?_map, ha]
    rfl

/-- Witness of C7: a granted request whose claims list two access records,
neither of them equal to the requested scope. -/
theorem token_scopes_from_claims_witness :
    (registryClient.Token (sampleEnv DefaultConfig ciRole okResponse sampleData sampleClaims)
        emptyWorld "https://auth.docker.io" "" "" "" "registry.docker.io"
        "repository:myimg:pull").1.1 = some sampleToken
    ∧ sampleToken.TokenScopes = ["repository:myimg:pull,push", "repository:other:pull"]
    ∧ ∃ resp data token claims,
      (sampleEnv DefaultConfig ciRole okResponse sampleData sampleClaims).Do emptyWorld.httpCalls
          (tokenRequest "https://auth.docker.io" "" "" "" "registry.docker.io"
            "repository:myimg:pull") = .ok resp
      ∧ (sampleEnv DefaultConfig ciRole okResponse sampleData sampleClaims).decodeTokenResponse
          (resp.Body.take (5 <<< 20)) = .ok data
      ∧ (sampleEnv DefaultConfig ciRole okResponse sampleData sampleClaims).ParseSigned data.Token
          = .ok token
      ∧ (sampleEnv DefaultConfig ciRole okResponse sampleData
          sampleClaims).UnsafeClaimsWithoutVerification token = .ok claims
      ∧ sampleToken.TokenScopes.length = claims.Access.length
      ∧ (∀ (i : Nat) (a : jwtAccess), claims.Access[i]? = some a →
          sampleToken.TokenScopes[i]? = some (a.Typ ++ ":" ++ a.Name ++ ":" ++ Join a.Actions ","))
      ∧ sampleToken.TokenScopes = claims.Access.map jwtAccess.String :=
  ⟨by decide, rfl,
   token_scopes_from_claims _ emptyWorld "https://auth.docker.io" "" "" "" "registry.docker.io"
    "repository:myimg:pull" sampleToken (by decide)⟩
/-- Counterexample to C6: the registry answers 500 to a request whose scope
contains a double quote; the error message quotes the scope with `%q`, which
backslashes the double quote, and so does not contain the scope string. -/
theorem non200_message_lacks_quoted_scope :
    (registryClient.Token
          (sampleEnv DefaultConfig ciRole serverError sampleData sampleClaims) emptyWorld
          "https://auth.docker.io" "" "" "" "registry.docker.io" scopeWithQuote).1
        = (none, some (.errorString refusalMessage))
      ∧ (GoError.errorString refusalMessage).Error = refusalMessage
      ∧ Contains refusalMessage scopeWithQuote = false :=
  ⟨by decide, rfl, by decide⟩

/-- C6 as amended: when the transport answers with a status other than 200,
whatever the body, `Token` returns a nil token and the error "error getting
auth token for " followed by the scope quoted as by `%q`, ": " and the status
line; the message contains the quoted scope, and contains the scope string
itself whenever every character of the scope is printable and is neither a
double quote nor a backslash; the body is not decoded. -/
theorem token_non200_error (env : Env) (w : World)
    (endpoint clientID username password service scope : String) (resp : HTTPResponse)
    (hne : endpoint ≠ "")
    (hparse : env.urlParse (endpoint ++ "/token") = none)
    (hreq : env.newRequest (endpoint ++ "/token") (tokenParams clientID service scope) = none)
    (hdo : env.Do w.httpCalls (tokenRequest endpoint clientID username password service scope)
      = .ok resp)
    (hstatus : resp.StatusCode ≠ 200) :
    (registryClient.Token env w endpoint clientID username password service scope).1
        = (none, some (.errorString ("error getting auth token for "
            ++ Quote env.isPrintTable scope ++ ": " ++ resp.Status)))
      ∧ Contains ("error getting auth token for " ++ Quote env.isPrintTable scope ++ ": "
          ++ resp.Status) (Quote env.isPrintTable scope) = true
      ∧ ((∀ c ∈ scope.data,
            IsPrint env.isPrintTable c = true ∧ c.toNat ≠ 0x22 ∧ c.toNat ≠ 0x5C) →
          Contains ("error getting auth token for " ++ Quote env.isPrintTable scope ++ ": "
            ++ resp.Status) scope = true)
      ∧ (registryClient.Token env w endpoint clientID username password service scope).2.jsonDecodes
          = w.jsonDecodes := by
  rw [Token_non200 env w endpoint clientID username password service scope resp hne hparse hreq
    hdo hstatus]
  refine ⟨rfl, ?_, ?_, ?_⟩
  · rw [String.append_assoc]
    exact Contains_middle _ _ _
  · intro hplain
    rw [Quote_plain env.isPrintTable scope hplain]
    have h := Contains_middle
      ("error getting auth token for " ++ String.singleton (Char.ofNat 0x22)) scope
      (String.singleton (Char.ofNat 0x22) ++ (": " ++ resp.Status))
    simpa [String.append_assoc] using h
  · simp [World.jsonDecodes, World.log, List.countP_append, Event.isJsonDecode]

/-- Witness of the amended C6: a refused request for the scope of `ciRole`,
all of whose characters are plain. -/
theorem token_non200_error_witness :
    (registryClient.Token (sampleEnv DefaultConfig ciRole serverError sampleData sampleClaims)
        emptyWorld "https://auth.docker.io" "" "" "" "registry.docker.io"
        "repository:myimg:pull").1.1 = none
    ∧ ∃ e, (registryClient.Token
          (sampleEnv DefaultConfig ciRole serverError sampleData sampleClaims)
          emptyWorld "https://auth.docker.io" "" "" "" "registry.docker.io"
          "repository:myimg:pull").1.2 = some e
        ∧ Contains e.Error "repository:myimg:pull" = true := by
  obtain ⟨h1, _, h3, _⟩ := token_non200_error
    (sampleEnv DefaultConfig ciRole serverError sampleData sampleClaims) emptyWorld
    "https://auth.docker.io" "" "" "" "registry.docker.io" "repository:myimg:pull" serverError
    (by decide) rfl rfl rfl (by decide)
  rw [h1]
  exact ⟨rfl, _, rfl, h3 (by decide)⟩
/-- C2, evaluated on the code: updating `ciRole` with the scopes it already
has, in the same order, returns changed = true although the role is unchanged,
and `pathRoleWriteOperation` then performs a storage Put. -/
theorem role_update_same_scopes_reports_change :
    ciRole.Update (some sameScopesFields) = .ret (ciRole, true, none)
      ∧ worldWithCiRole.storagePuts = 0
      ∧ (backend.pathRoleWriteOperation refusingEnv worldWithCiRole sameScopesFields).1
          = .ret (none, none)
      ∧ (backend.pathRoleWriteOperation refusingEnv worldWithCiRole sameScopesFields).2.trace
          = [.storageGet "roles/ci", .storagePut ⟨"roles/ci", [1]⟩]
      ∧ (backend.pathRoleWriteOperation refusingEnv worldWithCiRole
          sameScopesFields).2.storagePuts = 1 := by
  refine ⟨by decide, by decide, by decide, by decide, by decide⟩

/-- C1, evaluated on the code: with a registry that refuses every attempt,
`credReadOperation` does not return an error; the result of `retryFib` is
dropped, the handler goes on to `t.AsMap()` with the nil token and panics,
after six invocations of `Token`. -/
theorem cred_read_panics_when_every_attempt_fails :
    (backend.credReadOperation refusingEnv (NewRegistryClient refusingEnv) worldWithCiRole
        credsFields).1
      = .panic "runtime error: invalid memory address or nil pointer dereference"
    ∧ (backend.credReadOperation refusingEnv (NewRegistryClient refusingEnv) worldWithCiRole
        credsFields).2.tokenCalls = 6
    ∧ (backend.credReadOperation refusingEnv (NewRegistryClient refusingEnv) worldWithCiRole
        credsFields).2.httpCalls = 6 := by
  refine ⟨by decide, by decide, by decide⟩
/-- Counterexample to C3: the stored configuration has an empty EndpointURL,
and one credential read invokes `Token` six times, once for every attempt of
`retryFib`, without any HTTP request. -/
theorem empty_endpoint_token_invoked_six_times :
    (backend.Config emptyEndpointEnv worldWithConfigAndRole).1 = .ok ⟨"", "", "", ""⟩
    ∧ worldWithConfigAndRole.tokenCalls = 0
    ∧ (backend.credReadOperation emptyEndpointEnv (NewRegistryClient emptyEndpointEnv)
        worldWithConfigAndRole credsFields).2.tokenCalls = 6
    ∧ (backend.credReadOperation emptyEndpointEnv (NewRegistryClient emptyEndpointEnv)
        worldWithConfigAndRole credsFields).2.httpCalls = 0 := by
  refine ⟨rfl, by decide, by decide, by decide⟩

/-- C3 as amended: when the loaded configuration has an empty EndpointURL and
the role loads, the endpoint check is made inside `Token` on every attempt of
the retry loop: one credential read invokes `Token` six times (the first
attempt and five retries) and makes no HTTP request. -/
theorem empty_endpoint_checked_on_every_attempt (env : Env) (w : World) (fieldData : FieldData)
    (engine : Config) (roleName : String) (role : Role)
    (hcfg : (backend.Config env w).1 = .ok engine)
    (hempty : engine.EndpointURL = "")
    (hname : (fieldData.Get "name").bind asString = .ret roleName)
    (hrole : (backend.Role env (backend.Config env w).2 roleName).1 = .ok role) :
    (backend.credReadOperation env (NewRegistryClient env) w fieldData).2.tokenCalls
        = w.tokenCalls + 6
    ∧ (backend.credReadOperation env (NewRegistryClient env) w fieldData).2.httpCalls
        = w.httpCalls := by
  obtain ⟨err, hretry⟩ := retryFib_empty_endpoint env engine role
    (backend.Role env (backend.Config env w).2 roleName).2 hempty
  have hw1 := backend_Config_world env w
  have hw2 := backend_Role_world env (backend.Config env w).2 roleName
  cases hc : backend.Config env w with
  | mk rc w1 =>
    rw [hc] at hcfg hw1 hw2 hrole hretry
    simp only [] at hcfg hw1 hw2 hrole hretry
    subst hcfg
    cases hr : backend.Role env w1 roleName with
    | mk rr w2 =>
      rw [hr] at hw2 hrole hretry
      simp only [] at hw2 hrole hretry
      subst hrole
      simp only [backend.credReadOperation, hc, hname, hr, hretry]
      subst hw2
      subst hw1
      constructor
      · simp [World.tokenCalls, World.log, List.countP_append, Event.isTokenCall,
          List.countP_replicate]
      · simp [World.httpCalls, World.log, List.countP_append, Event.isHttpDo,
          List.countP_replicate]

/-- Witness of the amended C3: the stored configuration with an empty endpoint
and the stored role "ci". -/
theorem empty_endpoint_checked_on_every_attempt_witness :
    (backend.credReadOperation emptyEndpointEnv (NewRegistryClient emptyEndpointEnv)
        worldWithConfigAndRole credsFields).2.tokenCalls = worldWithConfigAndRole.tokenCalls + 6
    ∧ (backend.credReadOperation emptyEndpointEnv (NewRegistryClient emptyEndpointEnv)
        worldWithConfigAndRole credsFields).2.httpCalls = worldWithConfigAndRole.httpCalls :=
  empty_endpoint_checked_on_every_attempt emptyEndpointEnv worldWithConfigAndRole credsFields
    ⟨"", "", "", ""⟩ "ci" ciRole rfl rfl (by decide) rfl
/-- C11: for every operation that returns an error on every invocation,
`retryFib` invokes it exactly six times (the counter next to the operation
advances by 6), returns a non-nil error, and the counter does not change what
`retryFib` returns. -/
theorem retryFib_invokes_failing_op_six_times {σ : Type} (op : σ → Option GoError × σ)
    (s : σ) (n : Nat) (hfail : ∀ s, (op s).1 ≠ none) :
    (retryFib (counted op) (s, n)).2.2 = n + 6
      ∧ (retryFib (counted op) (s, n)).1 ≠ none
      ∧ (retryFib (counted op) (s, n)).1 = (retryFib op s).1
      ∧ (retryFib (counted op) (s, n)).2.1 = (retryFib op s).2 := by
  obtain ⟨e, s1, h1⟩ := counted_fail op hfail s n
  obtain ⟨e2, s2, h2⟩ := retryLoop_counted_fail op hfail 5 e s1 (n + 1)
  have hplain : op s = (some e, s1) := by
    simp only [counted, Prod.mk.injEq] at h1
    exact Prod.ext h1.1 h1.2.1
  have herase := retryLoop_counted_erase op 5 e s1 (n + 1)
  have hc : retryFib (counted op) (s, n) = (some e2, (s2, n + 1 + 5)) := by
    simp only [retryFib, Fibonacci, FibonacciBackoff.Retry, h1]
    exact h2
  have hp : retryFib op s = retryLoop op 5 e s1 := by
    simp only [retryFib, Fibonacci, FibonacciBackoff.Retry, hplain]
  rw [h2] at herase
  rw [hc, hp]
  exact ⟨by simp, by simp, herase.1, herase.2⟩

/-- Witness of C11: an operation without state that always fails. -/
theorem retryFib_invokes_failing_op_six_times_witness :
    (retryFib (counted alwaysFailing) ((), 0)).2.2 = 0 + 6
      ∧ (retryFib (counted alwaysFailing) ((), 0)).1 ≠ none
      ∧ (retryFib (counted alwaysFailing) ((), 0)).1 = (retryFib alwaysFailing ()).1
      ∧ (retryFib (counted alwaysFailing) ((), 0)).2.1 = (retryFib alwaysFailing ()).2 :=
  retryFib_invokes_failing_op_six_times alwaysFailing () 0 (by
    intro s
    simp [alwaysFailing])
/-- C12, evaluated on the code: a write of the new role "ci" that supplies the
name and the scopes but no service finds no stored entry, `GetOk` reports the
service as absent although the schema declares the default
"registry.docker.io" (which `Get` would return), `Update` leaves Service empty,
and the role put into the storage has an empty Service. -/
theorem new_role_without_service_persists_empty_service :
    (backend.Role textCodecEnv emptyWorld "ci").1 = .ok ⟨"", "", []⟩
      ∧ newRoleFields.GetOk "service" = none
      ∧ newRoleFields.Get "service" = .ret (.str "registry.docker.io")
      ∧ (⟨"", "", []⟩ : Role).Update (some newRoleFields)
          = .ret (⟨"ci", "", ["repository:myimg:pull"]⟩, true, none)
      ∧ (backend.pathRoleWriteOperation textCodecEnv emptyWorld newRoleFields).1
          = .ret (none, none)
      ∧ (backend.pathRoleWriteOperation textCodecEnv emptyWorld newRoleFields).2.store
          = [⟨"roles/ci", encodeRoleText ⟨"ci", "", ["repository:myimg:pull"]⟩⟩]
      ∧ encodeRoleText ⟨"ci", "", ["repository:myimg:pull"]⟩
          ≠ encodeRoleText ⟨"ci", "registry.docker.io", ["repository:myimg:pull"]⟩ := by
  refine ⟨rfl, by decide, by decide, by decide, by decide, by decide, by decide⟩

/-- C13: whenever a credential read with the client of this package returns
a response for a role loaded from the storage, the response is the field map
of a token whose RequestScopes is the split on single spaces of the role's
scopes joined by single spaces: equal to the role's scopes, element for
element, if that list is not empty and no scope is empty or contains a space,
and the one-element list holding the empty string, which is not the scope
list, if the role has no scopes. -/
theorem cred_read_request_scopes_round_trip (env : Env) (w : World) (fieldData : FieldData)
    (roleName : String) (role : Role) (resp : Response)
    (hname : (fieldData.Get "name").bind asString = .ret roleName)
    (hrole : (backend.Role env (backend.Config env w).2 roleName).1 = .ok role)
    (hresp : (backend.credReadOperation env (NewRegistryClient env) w fieldData).1
      = .ret (some resp, none)) :
    ∃ t : RegistryToken, resp.Data = t.AsMap
      ∧ resp.Data.lookup "request_scopes" = some (.strSlice t.RequestScopes)
      ∧ t.RequestScopes = SplitSpace (Join role.Scopes " ")
      ∧ (role.Scopes ≠ [] → (∀ s ∈ role.Scopes, s ≠ "" ∧ ' ' ∉ s.data) →
          t.RequestScopes = role.Scopes)
      ∧ (role.Scopes = [] → t.RequestScopes = [""] ∧ t.RequestScopes ≠ role.Scopes) := by
  cases hc : backend.Config env w with
  | mk rc w1 =>
    rw [hc] at hrole
    simp only [] at hrole
    cases rc with
    | error err => simp [backend.credReadOperation, hc] at hresp
    | ok engine =>
      cases hr : backend.Role env w1 roleName with
      | mk rr w2 =>
        rw [hr] at hrole
        simp only [] at hrole
        subst hrole
        have hinv := retryFib_invariant
          (fun st : Option RegistryToken × World =>
            ∀ t, st.1 = some t → t.RequestScopes = SplitSpace (Join role.Scopes " "))
          (credReadAttempt (NewRegistryClient env) engine role)
          (fun st t ht => credReadAttempt_RequestScopes env engine role st t ht)
          (none, w2)
        cases hretry : retryFib (credReadAttempt (NewRegistryClient env) engine role)
            (none, w2) with
        | mk e st =>
          cases st with
          | mk t w3 =>
            rw [hretry] at hinv
            simp only [backend.credReadOperation, hc, hname, hr, hretry] at hresp
            cases t with
            | none => simp at hresp
            | some t =>
              simp only [Outcome.ret.injEq, Prod.mk.injEq, Option.some.injEq, and_true] at hresp
              have hrs := hinv t rfl
              refine ⟨t, by rw [← hresp], by rw [← hresp]; rfl, hrs, ?_, ?_⟩
              · intro hne hall
                rw [hrs]
                exact SplitSpace_Join role.Scopes hne (fun s hs => (hall s hs).2)
              · intro hnil
                rw [hrs, hnil]
                exact ⟨by decide, by decide⟩

/-- Witness of C13: the credential read of "ci" for a stored role with two
scopes, whose joined scope string holds a separator, and the credential read
of a role that is not stored, which has no scopes. -/
theorem cred_read_request_scopes_round_trip_witness :
    ((backend.credReadOperation twoScopeEnv (NewRegistryClient twoScopeEnv) worldWithCiRole
          credsFields).1 = .ret (some ⟨twoScopeToken.AsMap⟩, none)
      ∧ Join twoScopeRole.Scopes " " = "repository:myimg:pull repository:other:pull,push"
      ∧ List.lookup "request_scopes" twoScopeToken.AsMap
          = some (.strSlice ["repository:myimg:pull", "repository:other:pull,push"]))
    ∧ ((backend.credReadOperation grantingEnv (NewRegistryClient grantingEnv) emptyWorld
          credsFields).1 = .ret (some ⟨absentRoleToken.AsMap⟩, none)
      ∧ List.lookup "request_scopes" absentRoleToken.AsMap = some (.strSlice [""])) := by
  have h1 : (backend.credReadOperation twoScopeEnv (NewRegistryClient twoScopeEnv)
      worldWithCiRole credsFields).1 = .ret (some ⟨twoScopeToken.AsMap⟩, none) := by decide
  have h2 : (backend.credReadOperation grantingEnv (NewRegistryClient grantingEnv) emptyWorld
      credsFields).1 = .ret (some ⟨absentRoleToken.AsMap⟩, none) := by decide
  obtain ⟨t, hd, hl, _, hfull, _⟩ := cred_read_request_scopes_round_trip twoScopeEnv
    worldWithCiRole credsFields "ci" twoScopeRole ⟨twoScopeToken.AsMap⟩ (by decide) rfl h1
  obtain ⟨u, _, hl2, _, _, hnil⟩ := cred_read_request_scopes_round_trip grantingEnv
    emptyWorld credsFields "ci" ⟨"", "", []⟩ ⟨absentRoleToken.AsMap⟩ (by decide) rfl h2
  refine ⟨⟨h1, by decide, ?_⟩, ⟨h2, ?_⟩⟩
  · have := hfull (by decide) (by decide)
    rw [this] at hl
    exact hl
  · have := (hnil rfl).1
    rw [this] at hl2
    exact hl2

end DockerRegistry
